import Mathlib

/-!
Verification development for the `download_manager` repository.

The Python sources under `src/backend/` (downloader.py, manager.py) and the
duplicate implementations in `src/script.py` and `src/downloader/` are shallowly
embedded below.  Machine state that the code keeps in dictionaries (the task
store, the per-task pause/cancel events, the on-disk files) is modelled as
association lists; file contents are lists of bytes (`List Nat`); Python string
paths of the fixed shapes `<filepath>`, `<filepath>.part<i>`, `<filepath>.tmp`
are modelled by the inductive `FPath` keyed by an abstract base name.
-/

/-- Association-list lookup: first binding of the key, as Python `dict.get`. -/
def lookupA {κ α : Type} [DecidableEq κ] : List (κ × α) → κ → Option α
  | [], _ => none
  | (k, a) :: rest, key => if k = key then some a else lookupA rest key

/-- Remove every binding of the key, as Python `del d[k]` / `os.remove`. -/
def removeA {κ α : Type} [DecidableEq κ] : List (κ × α) → κ → List (κ × α)
  | [], _ => []
  | (k, a) :: rest, key =>
    if k = key then removeA rest key else (k, a) :: removeA rest key

/-- Bind a key to a value, as Python `d[k] = v` / opening a file with mode `wb`. -/
def setA {κ α : Type} [DecidableEq κ] (l : List (κ × α)) (k : κ) (a : α) :
    List (κ × α) :=
  (k, a) :: removeA l k

/-- Update the value bound to a key in place, as Python mutation of `d[k]`. -/
def updateA {κ α : Type} [DecidableEq κ] (f : α → α) :
    List (κ × α) → κ → List (κ × α)
  | [], _ => []
  | (k, a) :: rest, key =>
    if k = key then (k, f a) :: updateA f rest key
    else (k, a) :: updateA f rest key

/-- On-disk path names used by one or more tasks.  `final b` stands for the
string `filepath` of a task whose base name is abstracted by `b`; `part b i`
stands for `f"{filepath}.part{i}"`; `tmp b` stands for `f"{filepath}.tmp"`. -/
inductive FPath where
  | final (base : Nat)
  | part (base : Nat) (i : Nat)
  | tmp (base : Nat)
deriving DecidableEq

/-- The file system: a map from paths to byte contents. -/
abbrev Fs := List (FPath × List Nat)

/-- `src/backend/downloader.py` lines 356-366, `_calculate_chunks` (the same
function appears verbatim in `src/script.py` lines 251-261):
`chunk_size = total_size // num_threads`; chunk `i` is
`(i, i*chunk_size, i*chunk_size + chunk_size - 1)` except the last chunk whose
end is `total_size - 1`.  Ends are inclusive and may be `-1` when
`chunk_size = 0`, hence `Int`. -/
def calculateChunks (totalSize numThreads : Nat) : List (Nat × Int × Int) :=
  let chunkSize := totalSize / numThreads
  (List.range numThreads).map (fun (i : Nat) =>
    let start : Int := (i : Int) * (chunkSize : Int)
    (i, start,
      if i < numThreads - 1 then start + (chunkSize : Int) - 1
      else (totalSize : Int) - 1))

/-- Inclusive start of chunk `i` of `_calculate_chunks total N`. -/
def chunkStart (total N i : Nat) : Int :=
  ((calculateChunks total N).getD i (0, 0, 0)).2.1

/-- Inclusive end of chunk `i` of `_calculate_chunks total N`. -/
def chunkEnd (total N i : Nat) : Int :=
  ((calculateChunks total N).getD i (0, 0, 0)).2.2

/-- Inclusive length of chunk `i` of `_calculate_chunks total N`. -/
def chunkLen (total N i : Nat) : Int :=
  chunkEnd total N i - chunkStart total N i + 1

/-- One iteration step of the loop of `src/backend/downloader.py` lines 368-387,
`_merge_chunks`: for each index in turn, if `f"{filepath}.part{i}"` exists its
bytes are appended to the (already open) output file and the part file is
removed immediately; a missing part file aborts with `False`, leaving the
partially written output in place. -/
def mergeLoop (base : Nat) : Fs → List Nat → Fs × Bool
  | fs, [] => (fs, true)
  | fs, i :: rest =>
    match lookupA fs (FPath.part base i) with
    | some content =>
      let cur := (lookupA fs (FPath.final base)).getD []
      mergeLoop base
        (removeA (setA fs (FPath.final base) (cur ++ content)) (FPath.part base i))
        rest
    | none => (fs, false)

/-- `src/backend/downloader.py` lines 368-387, `_merge_chunks`: the output file
`filepath` is opened with mode `wb` (truncated to empty), then parts
`0 .. num_chunks - 1` are copied in ascending index order by `mergeLoop`. -/
def mergeChunks (fs : Fs) (base : Nat) (numChunks : Nat) : Fs × Bool :=
  mergeLoop base (setA fs (FPath.final base) []) (List.range numChunks)

/-- Modelled from the spec (section 4.5, "merge part files into
`<final_path>.tmp` in index order, rename atomically to `final_path`, delete
part files"): this is the merge procedure the specification describes, stated
here only to be compared with `mergeChunks`, the merge the code actually
performs. -/
def mergeChunksSpecTmp (fs : Fs) (base : Nat) (numChunks : Nat) : Fs × Bool :=
  let contents := (List.range numChunks).map
    (fun i => (lookupA fs (FPath.part base i)).getD [])
  if (List.range numChunks).all (fun i => (lookupA fs (FPath.part base i)).isSome) then
    let fs1 := setA fs (FPath.tmp base) contents.flatten
    let fs2 := setA (removeA fs1 (FPath.tmp base)) (FPath.final base) contents.flatten
    let fs3 := (List.range numChunks).foldl
      (fun acc i => removeA acc (FPath.part base i)) fs2
    (fs3, true)
  else (fs, false)

/-- Tail of `src/backend/downloader.py` lines 170-177, `download`: on success
the task status becomes `completed` and progress `100`, otherwise `failed`. -/
def downloadStatusAfter (success : Bool) : String :=
  if success then "completed" else "failed"

/-- What the pre-network part of `download_chunk` decides to do for one
segment. -/
inductive FetchPlan where
  | skipCompleted (seed : Nat)
  | request (rangeStart rangeEnd : Int) (append : Bool) (seed : Nat)
deriving DecidableEq

/-- `src/backend/downloader.py` lines 264-283, `download_chunk` before the HTTP
request.  `partSize` is `os.path.getsize` of `f"{task.filepath}.part{idx}"`
when that file exists, `none` otherwise.  The initial header is
`Range: bytes={start}-{end}`; if the part file exists with exactly
`end - start + 1` bytes the chunk is recorded as done and no request is made;
if it exists with any other positive size `s` the range becomes
`bytes={start+s}-{end}` and the chunk progress counter is seeded with `s`;
the open mode is `ab` whenever the part file exists, else `wb`. -/
def planChunkFetch (start e : Int) (partSize : Option Nat) : FetchPlan :=
  match partSize with
  | some s =>
    if (s : Int) = e - start + 1 then FetchPlan.skipCompleted s
    else if 0 < s then FetchPlan.request (start + (s : Int)) e true s
    else FetchPlan.request start e true 0
  | none => FetchPlan.request start e false 0

/-- `src/backend/downloader.py` lines 158-170, `download`: the multi-threaded
path is taken exactly when `task.total_size > settings.min_split_size and
task.supports_resume and settings.global_chunk_number > 1`; in every other
case `_single_threaded_download` runs. -/
def useMultiThreaded (totalSize minSplitSize : Nat) (supportsResume : Bool)
    (chunkNumber : Nat) : Bool :=
  decide (totalSize > minSplitSize) && supportsResume && decide (chunkNumber > 1)

/-- `src/backend/manager.py` lines 15-30, dataclass `DownloadTask` of the
manager.  `filepath` is `none` for the empty string (Python falsy); the float
fields `speed` and `progress` are modelled as naturals (none of the operations
verified here computes with them); the opaque `chunks` list of dicts is
modelled as an abstract list; the `datetime` fields are not modelled. -/
structure MTask where
  id : String
  url : String
  filename : String
  filepath : Option Nat
  totalSize : Nat
  downloadedSize : Nat
  status : String
  speed : Nat
  progress : Nat
  error : Option String
  eta : Nat
  chunks : List Nat
deriving DecidableEq

/-- Modelled from the spec (sections 3 and 9, TaskControl): the `Downloader`
object that `src/backend/manager.py` imports from `.downloader` and keeps in
`active_downloads` is not present under `src/`; only its `pause()` and
`cancel()` calls are.  Per the spec it carries a pause gate (closed by
`pause`) and a monotonic cancel signal (raised by `cancel`). -/
structure Ctrl where
  paused : Bool
  cancelled : Bool
deriving DecidableEq

/-- The state of `src/backend/manager.py`'s `DownloadManager` relevant to the
lifecycle operations: the task store `self.tasks`, the control objects
`self.active_downloads`, the FIFO `self.download_queue`, and the disk. -/
structure MState where
  tasks : List (String × MTask)
  active : List (String × Ctrl)
  queue : List String
  fs : Fs
deriving DecidableEq

/-- `src/backend/manager.py` lines 175-180, `pause_download`: if the task has an
active downloader, close its pause gate and set the task status to `paused`. -/
def pauseDownload (s : MState) (tid : String) : MState :=
  if (lookupA s.active tid).isSome then
    { s with
      active := updateA (fun c => { c with paused := true }) s.active tid,
      tasks := updateA (fun t => { t with status := "paused" }) s.tasks tid }
  else s

/-- `src/backend/manager.py` lines 182-189, `resume_download`: if the task
exists with status `paused` or `failed`, set it to `queued`, clear its error,
and push its id on the download queue. -/
def resumeDownload (s : MState) (tid : String) : MState :=
  match lookupA s.tasks tid with
  | some t =>
    if t.status = "paused" ∨ t.status = "failed" then
      { s with
        tasks := updateA (fun u => { u with status := "queued", error := none })
          s.tasks tid,
        queue := s.queue ++ [tid] }
    else s
  | none => s

/-- `src/backend/manager.py` lines 191-206, `cancel_download`: raise the cancel
signal of the active downloader if any; if the task exists set its status to
`cancelled` and, when `task.filepath` is non-empty and that file exists on
disk, remove it (only that one file). -/
def cancelDownload (s : MState) (tid : String) : MState :=
  let s1 :=
    if (lookupA s.active tid).isSome then
      { s with active := updateA (fun c => { c with cancelled := true }) s.active tid }
    else s
  match lookupA s1.tasks tid with
  | some t =>
    let s2 := { s1 with
      tasks := updateA (fun u => { u with status := "cancelled" }) s1.tasks tid }
    match t.filepath with
    | some b =>
      if (lookupA s2.fs (FPath.final b)).isSome then
        { s2 with fs := removeA s2.fs (FPath.final b) }
      else s2
    | none => s2
  | none => s1

/-- `src/backend/manager.py` lines 238-249, `clear_completed`: delete from the
store exactly the tasks whose status is `completed` (then re-save, which does
not touch the store). -/
def clearCompleted (s : MState) : MState :=
  { s with tasks := s.tasks.filter (fun e => !(decide (e.2.status = "completed"))) }

/-- `src/backend/manager.py` lines 251-262, `retry_failed`: every task with
status `failed` is set to `queued` with its error cleared and its id pushed on
the queue. -/
def retryFailed (s : MState) : MState :=
  { s with
    tasks := s.tasks.map (fun e =>
      if e.2.status = "failed" then (e.1, { e.2 with status := "queued", error := none })
      else e),
    queue := s.queue ++
      (s.tasks.filter (fun e => decide (e.2.status = "failed"))).map (fun e => e.1) }

/-- `src/backend/manager.py` lines 264-274, `resume_all` (run by `start` when
`resume_on_startup` is set): every task with status `paused` or `downloading`
is set to `queued` and its id pushed on the queue. -/
def resumeAll (s : MState) : MState :=
  { s with
    tasks := s.tasks.map (fun e =>
      if e.2.status = "paused" ∨ e.2.status = "downloading" then
        (e.1, { e.2 with status := "queued" })
      else e),
    queue := s.queue ++
      (s.tasks.filter
        (fun e => decide (e.2.status = "paused" ∨ e.2.status = "downloading"))).map
        (fun e => e.1) }

/-- The record written per task by `save_tasks` into `config/tasks.json`. -/
structure PTask where
  id : String
  url : String
  filename : String
  filepath : Option Nat
  totalSize : Nat
  downloadedSize : Nat
  status : String
  chunks : List Nat
deriving DecidableEq

/-- `src/backend/manager.py` lines 284-293: the persisted record of one task;
a `downloading` status is written out as `paused`, every other status
verbatim. -/
def toPersisted (t : MTask) : PTask :=
  { id := t.id, url := t.url, filename := t.filename, filepath := t.filepath,
    totalSize := t.totalSize, downloadedSize := t.downloadedSize,
    status := if t.status = "downloading" then "paused" else t.status,
    chunks := t.chunks }

/-- `src/backend/manager.py` lines 276-299, `save_tasks`: the snapshot holds
one record per task whose status is not `completed`, in store order. -/
def saveTasks (tasks : List (String × MTask)) : List (String × PTask) :=
  tasks.filterMap (fun e =>
    if e.2.status = "completed" then none else some (e.1, toPersisted e.2))

/-- `src/backend/manager.py` lines 301-312, `load_tasks` rebuilding a task via
`DownloadTask(**data)`: the persisted fields are taken verbatim (the status is
not rewritten), the remaining dataclass fields take their defaults. -/
def ofPersisted (p : PTask) : MTask :=
  { id := p.id, url := p.url, filename := p.filename, filepath := p.filepath,
    totalSize := p.totalSize, downloadedSize := p.downloadedSize,
    status := p.status, speed := 0, progress := 0, error := none, eta := 0,
    chunks := p.chunks }

/-- `src/backend/manager.py` lines 301-312, `load_tasks`: every record of the
state file becomes a task in the (initially empty) store. -/
def loadTasks (dat : List (String × PTask)) : List (String × MTask) :=
  dat.map (fun e => (e.1, ofPersisted e.2))

/-- The manager state at the end of `__init__` after `load_tasks`: the loaded
store, no active downloads, an empty queue; `fsAfter` is whatever is on disk. -/
def loadedState (dat : List (String × PTask)) (fsAfter : Fs) : MState :=
  { tasks := loadTasks dat, active := [], queue := [], fs := fsAfter }

/-- The headers of an HTTP response that `get_file_info` reads, plus its status
code.  `contentLength` is `none` when the `Content-Length` header is absent. -/
structure HttpResponse where
  statusCode : Nat
  contentDisposition : Option String
  contentLength : Option Nat
  acceptRanges : Option String
deriving DecidableEq

/-- Whether `needle` begins the second list. -/
def beginsWith : List Char → List Char → Bool
  | [], _ => true
  | _ :: _, [] => false
  | a :: as, b :: bs => decide (a = b) && beginsWith as bs

/-- Whether `needle` occurs as a contiguous sublist, as Python `needle in s`. -/
def hasSub (needle : List Char) : List Char → Bool
  | [] => needle.isEmpty
  | c :: rest => beginsWith needle (c :: rest) || hasSub needle rest

/-- `'bytes' in headers.get('accept-ranges', '').lower()` from
`src/backend/downloader.py` line 101. -/
def hasBytesToken (s : String) : Bool :=
  hasSub "bytes".toList (s.toList.map Char.toLower)

/-- Python `str.strip` with the quote character: drop every leading and
trailing double quote. -/
def stripQuoteEnds (s : String) : String :=
  String.mk
    (((s.toList.dropWhile (fun c => decide (c = '"'))).reverse.dropWhile
      (fun c => decide (c = '"'))).reverse)

/-- Python `os.path.basename`: the portion after the last slash. -/
def baseNameOf (s : String) : String :=
  String.mk ((s.toList.reverse.takeWhile (fun c => !(decide (c = '/')))).reverse)

/-- Python `os.path.splitext` for the paths at hand: split at the last dot of
the string, the extension keeping the dot; `("", s)`-style leading-dot corner
cases of directories do not arise for the download paths. -/
def splitExt (s : String) : String × String :=
  let cs := s.toList
  if cs.contains '.' then
    let extTail := (cs.reverse.takeWhile (fun c => !(decide (c = '.')))).reverse
    let stemLen := cs.length - extTail.length - 1
    (String.mk (cs.take stemLen), String.mk (cs.drop stemLen))
  else (s, "")

/-- `src/backend/downloader.py` lines 73-84, `_get_filename_from_url`.  The
external stdlib collaborators are passed in: `unquote` is `urllib.parse.unquote`
and `parsedPath` is `urlparse(url).path`.  If `Content-Disposition` holds a
`filename=` token, the text after the first occurrence is unquoted with double
quotes stripped; else the basename of the URL path, URL-decoded; else the
synthetic `download_<epoch>`. -/
def getFilenameFromUrl (unquote : String → String)
    (contentDisposition parsedPath : String) (epoch : Nat) : String :=
  let parts := contentDisposition.splitOn "filename="
  if 1 < parts.length then unquote (stripQuoteEnds (parts.getD 1 ""))
  else
    let filename := baseNameOf parsedPath
    if filename = "" then "download_" ++ toString epoch else unquote filename

/-- `src/backend/downloader.py` lines 86-109, `get_file_info`.  `headResult`
and `getResult` are the outcomes of the HEAD request and of the fallback
streaming GET (`Except.error` is a raised transport error).  The HEAD is
issued first; on a status `>= 400` the GET replaces it; `raise_for_status`
then throws on a status `>= 400`.  Any exception is caught and the fallback
triple `("download_<epoch>", 0, False)` is returned. -/
def getFileInfo (headResult getResult : Except String HttpResponse)
    (unquote : String → String) (parsedPath : String) (epoch : Nat) :
    String × Nat × Bool :=
  let outcome : Except String HttpResponse :=
    match headResult with
    | Except.error e => Except.error e
    | Except.ok r =>
      if 400 ≤ r.statusCode then
        match getResult with
        | Except.error e => Except.error e
        | Except.ok r2 =>
          if 400 ≤ r2.statusCode then Except.error "HTTPError" else Except.ok r2
      else Except.ok r
  match outcome with
  | Except.ok r =>
    (getFilenameFromUrl unquote (r.contentDisposition.getD "") parsedPath epoch,
     r.contentLength.getD 0,
     hasBytesToken (r.acceptRanges.getD ""))
  | Except.error _ => ("download_" ++ toString epoch, 0, false)

/-- `src/backend/downloader.py` lines 16-31, dataclass `DownloadTask` of the
backend downloader (float and timestamp fields modelled as naturals / absent
as in `MTask`). -/
structure BTask where
  id : String
  url : String
  filename : String
  filepath : String
  totalSize : Nat
  downloadedSize : Nat
  status : String
  speed : Nat
  progress : Nat
  error : Option String
  supportsResume : Bool
deriving DecidableEq

/-- The `while os.path.exists(filepath)` suffixing loop of
`create_download_task` (lines 118-123), with the set of existing paths made
explicit and a fuel bound large enough to exhaust it. -/
def resolveConflictAux (existing : List String) (stem ext : String) :
    Nat → Nat → String → String
  | 0, _, cur => cur
  | fuel + 1, counter, cur =>
    if cur ∈ existing then
      resolveConflictAux existing stem ext fuel (counter + 1)
        (stem ++ "_" ++ toString counter ++ ext)
    else cur

/-- `src/backend/downloader.py` lines 111-144, `create_download_task`.
`taskId` is the md5-derived id (external hash), `info` the triple returned by
`get_file_info`, `existing` the paths already on disk in the download
directory.  The created task has status `pending`, zero progress and no
error, whatever the probe outcome was. -/
def createDownloadTask (taskId url : String) (info : String × Nat × Bool)
    (downloadDir : String) (existing : List String) : BTask :=
  let filename := info.1
  let size := info.2.1
  let supportsResume := info.2.2
  let fp0 := downloadDir ++ "/" ++ filename
  let se := splitExt fp0
  let fp := resolveConflictAux existing se.1 se.2 (existing.length + 2) 1 fp0
  { id := taskId, url := url, filename := baseNameOf fp, filepath := fp,
    totalSize := size, downloadedSize := 0, status := "pending",
    speed := 0, progress := 0, error := none, supportsResume := supportsResume }

/-- Concrete fixture: a task mid-download whose part 0 is on disk. -/
def cex3Task : MTask :=
  { id := "t", url := "u", filename := "f", filepath := some 0, totalSize := 2,
    downloadedSize := 1, status := "downloading", speed := 0, progress := 0,
    error := none, eta := 0, chunks := [] }

/-- Concrete fixture: a store holding `cex3Task` with only its part file on
disk (the final file has not been assembled yet). -/
def cex3State : MState :=
  { tasks := [("t", cex3Task)], active := [], queue := [],
    fs := [(FPath.part 0 0, [7])] }

/-- Concrete fixture: a task that has already completed. -/
def cex4Task : MTask :=
  { id := "c", url := "u", filename := "f", filepath := some 1, totalSize := 3,
    downloadedSize := 3, status := "completed", speed := 0, progress := 100,
    error := none, eta := 0, chunks := [] }

/-- Concrete fixture: a store holding only the completed `cex4Task`. -/
def cex4State : MState :=
  { tasks := [("c", cex4Task)], active := [], queue := [], fs := [] }

/-- Concrete fixture: a task that is `downloading` at snapshot time. -/
def cex7Task : MTask :=
  { id := "d", url := "u", filename := "f", filepath := some 2, totalSize := 9,
    downloadedSize := 4, status := "downloading", speed := 0, progress := 0,
    error := none, eta := 0, chunks := [] }

/-- Concrete fixture: a failed task, kept alongside `cex4Task`. -/
def cex10Task : MTask :=
  { id := "x", url := "u2", filename := "g", filepath := none, totalSize := 5,
    downloadedSize := 2, status := "failed", speed := 0, progress := 0,
    error := some "boom", eta := 0, chunks := [] }

/-- Concrete fixture: a store holding one completed and one failed task. -/
def cex10State : MState :=
  { tasks := [("c", cex4Task), ("x", cex10Task)], active := [], queue := [],
    fs := [] }

/-! ### Association-list lemmas -/

theorem lookupA_setA_self {κ α : Type} [DecidableEq κ] (l : List (κ × α)) (k : κ)
    (a : α) : lookupA (setA l k a) k = some a := by
  simp [setA, lookupA]

theorem lookupA_removeA_self {κ α : Type} [DecidableEq κ] (l : List (κ × α))
    (k : κ) : lookupA (removeA l k) k = none := by
  induction l with
  | nil => simp [removeA, lookupA]
  | cons hd tl ih =>
    obtain ⟨k1, a1⟩ := hd
    by_cases h : k1 = k <;> simp [removeA, lookupA, h, ih]

theorem lookupA_removeA_ne {κ α : Type} [DecidableEq κ] (l : List (κ × α))
    (k k' : κ) (h : k' ≠ k) : lookupA (removeA l k) k' = lookupA l k' := by
  induction l with
  | nil => simp [removeA]
  | cons hd tl ih =>
    obtain ⟨k1, a1⟩ := hd
    by_cases h1 : k1 = k
    · subst h1
      simp [removeA, lookupA, ih, Ne.symm h]
    · by_cases h2 : k1 = k' <;> simp [removeA, lookupA, h1, h2, ih, h]

theorem lookupA_setA_ne {κ α : Type} [DecidableEq κ] (l : List (κ × α))
    (k k' : κ) (a : α) (h : k' ≠ k) :
    lookupA (setA l k a) k' = lookupA l k' := by
  simp [setA, lookupA, Ne.symm h, lookupA_removeA_ne l k k' h]

theorem lookupA_updateA_self {κ α : Type} [DecidableEq κ] (f : α → α)
    (l : List (κ × α)) (k : κ) :
    lookupA (updateA f l k) k = (lookupA l k).map f := by
  induction l with
  | nil => simp [updateA, lookupA]
  | cons hd tl ih =>
    obtain ⟨k1, a1⟩ := hd
    by_cases h : k1 = k <;> simp [updateA, lookupA, h, ih]

theorem lookupA_updateA_ne {κ α : Type} [DecidableEq κ] (f : α → α)
    (l : List (κ × α)) (k k' : κ) (h : k' ≠ k) :
    lookupA (updateA f l k) k' = lookupA l k' := by
  induction l with
  | nil => simp [updateA]
  | cons hd tl ih =>
    obtain ⟨k1, a1⟩ := hd
    by_cases h1 : k1 = k
    · subst h1
      simp [updateA, lookupA, Ne.symm h, ih]
    · by_cases h2 : k1 = k' <;> simp [updateA, lookupA, h1, h2, ih, h]

theorem isSome_lookupA_updateA {κ α : Type} [DecidableEq κ] (f : α → α)
    (l : List (κ × α)) (k k' : κ) :
    (lookupA (updateA f l k) k').isSome = (lookupA l k').isSome := by
  by_cases h : k' = k
  · subst h
    rw [lookupA_updateA_self]
    cases lookupA l k' <;> rfl
  · rw [lookupA_updateA_ne f l k k' h]

theorem updateA_idem {κ α : Type} [DecidableEq κ] (f : α → α)
    (hf : ∀ a, f (f a) = f a) (l : List (κ × α)) (k : κ) :
    updateA f (updateA f l k) k = updateA f l k := by
  induction l with
  | nil => simp [updateA]
  | cons hd tl ih =>
    obtain ⟨k1, a1⟩ := hd
    by_cases h : k1 = k <;> simp [updateA, h, ih, hf]

/-! ### Claim C1: the segment planner -/

theorem calculateChunks_getD (total N i : Nat) (h : i < N) :
    (calculateChunks total N).getD i (0, 0, 0) =
      (i, (i : Int) * ((total / N : Nat) : Int),
        if i < N - 1 then
          (i : Int) * ((total / N : Nat) : Int) + ((total / N : Nat) : Int) - 1
        else (total : Int) - 1) := by
  unfold calculateChunks
  rw [List.getD_eq_getElem?_getD, List.getElem?_map, List.getElem?_range h]
  rfl

theorem sum_range_ite (M : Nat) (b c : Int) :
    ((List.range (M + 1)).map (fun i => if i < M then b else c)).sum
      = (M : Int) * b + c := by
  rw [List.range_succ, List.map_append, List.sum_append]
  have h : (List.range M).map (fun i => if i < M then b else c)
      = (List.range M).map (fun _ => b) := by
    apply List.map_congr_left
    intro i hi
    rw [if_pos (List.mem_range.mp hi)]
  rw [h]
  simp [List.map_const', List.sum_replicate, nsmul_eq_mul]

theorem sum_chunkLens (total M : Nat) :
    ((calculateChunks total (M + 1)).map (fun c => c.2.2 - c.2.1 + 1)).sum
      = (total : Int) := by
  have h : (calculateChunks total (M + 1)).map (fun c => c.2.2 - c.2.1 + 1)
      = (List.range (M + 1)).map (fun i =>
          if i < M then ((total / (M + 1) : Nat) : Int)
          else (total : Int) - (M : Int) * ((total / (M + 1) : Nat) : Int)) := by
    unfold calculateChunks
    rw [List.map_map]
    apply List.map_congr_left
    intro i hi
    have hi1 : i < M + 1 := List.mem_range.mp hi
    simp only [Function.comp, Nat.add_sub_cancel]
    by_cases hiM : i < M
    · rw [if_pos hiM, if_pos hiM]
      push_cast
      ring
    · have hieq : i = M := Nat.le_antisymm (Nat.lt_succ_iff.mp hi1) (Nat.le_of_not_lt hiM)
      subst hieq
      rw [if_neg hiM, if_neg hiM]
      push_cast
      ring
  rw [h, sum_range_ite]
  ring

/-- Claim C1: for every `total_size ≥ 1` and segment count `N ≥ 1`,
`_calculate_chunks` returns exactly `N` segments with inclusive byte ranges:
segment 0 starts at byte 0, consecutive segments are contiguous and disjoint
(`end_i + 1 = start_{i+1}`), the last segment ends at `total_size - 1`,
segments `0..N-2` each have length `total_size / N` rounded down, and the
inclusive segment lengths sum to `total_size`. -/
theorem calculateChunks_partition (total N : Nat) (htotal : 1 ≤ total)
    (hN : 1 ≤ N) :
    (calculateChunks total N).length = N
    ∧ chunkStart total N 0 = 0
    ∧ (∀ i, i + 1 < N → chunkEnd total N i + 1 = chunkStart total N (i + 1))
    ∧ chunkEnd total N (N - 1) = (total : Int) - 1
    ∧ (∀ i, i < N - 1 → chunkLen total N i = ((total / N : Nat) : Int))
    ∧ ((calculateChunks total N).map (fun c => c.2.2 - c.2.1 + 1)).sum
        = (total : Int) := by
  obtain ⟨M, rfl⟩ : ∃ M, N = M + 1 := ⟨N - 1, (Nat.succ_pred_eq_of_pos hN).symm⟩
  refine ⟨?_, ?_, ?_, ?_, ?_, sum_chunkLens total M⟩
  · simp [calculateChunks]
  · rw [chunkStart, calculateChunks_getD _ _ _ (Nat.succ_pos M)]
    simp
  · intro i hi
    have hi1 : i < M + 1 := Nat.lt_of_succ_lt hi
    have hiM : i < M := Nat.lt_of_succ_lt_succ hi
    rw [chunkEnd, chunkStart, calculateChunks_getD _ _ _ hi1,
      calculateChunks_getD _ _ _ hi]
    simp only [Nat.add_sub_cancel]
    rw [if_pos hiM]
    push_cast
    ring
  · rw [chunkEnd]
    simp only [Nat.add_sub_cancel]
    rw [calculateChunks_getD _ _ _ (Nat.lt_succ_self M)]
    simp
  · intro i hi
    simp only [Nat.add_sub_cancel] at hi
    have hi1 : i < M + 1 := Nat.lt_succ_of_lt hi
    rw [chunkLen, chunkEnd, chunkStart, calculateChunks_getD _ _ _ hi1]
    simp only [Nat.add_sub_cancel]
    rw [if_pos hi]
    push_cast
    ring

/-- Witness for `calculateChunks_partition` at `total_size = 10`, `N = 4`. -/
theorem calculateChunks_partition_witness :
    (1 ≤ 10 ∧ 1 ≤ 4)
    ∧ ((calculateChunks 10 4).length = 4
      ∧ chunkStart 10 4 0 = 0
      ∧ (∀ i, i + 1 < 4 → chunkEnd 10 4 i + 1 = chunkStart 10 4 (i + 1))
      ∧ chunkEnd 10 4 (4 - 1) = (10 : Int) - 1
      ∧ (∀ i, i < 4 - 1 → chunkLen 10 4 i = ((10 / 4 : Nat) : Int))
      ∧ ((calculateChunks 10 4).map (fun c => c.2.2 - c.2.1 + 1)).sum
          = (10 : Int)) :=
  ⟨⟨by decide, by decide⟩, calculateChunks_partition 10 4 (by decide) (by decide)⟩

/-! ### Claim C2: the merge step -/

theorem mergeLoop_ok (base : Nat) (f : Nat → List Nat) :
    ∀ (idxs : List Nat) (fs : Fs) (acc : List Nat),
      idxs.Nodup →
      lookupA fs (FPath.final base) = some acc →
      (∀ i ∈ idxs, lookupA fs (FPath.part base i) = some (f i)) →
      (mergeLoop base fs idxs).2 = true
      ∧ lookupA (mergeLoop base fs idxs).1 (FPath.final base)
          = some (acc ++ (idxs.map f).flatten)
      ∧ (∀ i ∈ idxs, lookupA (mergeLoop base fs idxs).1 (FPath.part base i) = none)
      ∧ (∀ p : FPath, p ≠ FPath.final base →
          (∀ i ∈ idxs, p ≠ FPath.part base i) →
          lookupA (mergeLoop base fs idxs).1 p = lookupA fs p) := by
  intro idxs
  induction idxs with
  | nil =>
    intro fs acc _ hfinal _
    refine ⟨rfl, ?_, by simp, fun p _ _ => rfl⟩
    simpa [mergeLoop] using hfinal
  | cons i rest ih =>
    intro fs acc hnodup hfinal hparts
    have hnotmem : i ∉ rest := (List.nodup_cons.mp hnodup).1
    have hrest : rest.Nodup := (List.nodup_cons.mp hnodup).2
    have hpi : lookupA fs (FPath.part base i) = some (f i) :=
      hparts i (List.mem_cons_self i rest)
    have hfp : FPath.final base ≠ FPath.part base i := by simp
    set fs1 : Fs :=
      removeA (setA fs (FPath.final base) (acc ++ f i)) (FPath.part base i) with hfs1
    have hstep : mergeLoop base fs (i :: rest) = mergeLoop base fs1 rest := by
      simp only [mergeLoop, hpi, hfinal, Option.getD_some, hfs1]
    have hfinal1 : lookupA fs1 (FPath.final base) = some (acc ++ f i) := by
      rw [hfs1, lookupA_removeA_ne _ _ _ hfp, lookupA_setA_self]
    have hparts1 : ∀ j ∈ rest, lookupA fs1 (FPath.part base j) = some (f j) := by
      intro j hj
      have hji : j ≠ i := fun h => hnotmem (h ▸ hj)
      have hpp : FPath.part base j ≠ FPath.part base i := by simp [hji]
      have hpf : FPath.part base j ≠ FPath.final base := by simp
      rw [hfs1, lookupA_removeA_ne _ _ _ hpp, lookupA_setA_ne _ _ _ _ hpf]
      exact hparts j (List.mem_cons_of_mem i hj)
    obtain ⟨hok, hfin, hpartsgone, hframe⟩ :=
      ih fs1 (acc ++ f i) hrest hfinal1 hparts1
    refine ⟨?_, ?_, ?_, ?_⟩
    · rw [hstep]; exact hok
    · rw [hstep, hfin]
      simp [List.append_assoc]
    · intro j hj
      rcases List.mem_cons.mp hj with hji | hjr
      · subst hji
        have hne1 : FPath.part base j ≠ FPath.final base := by simp
        have hne2 : ∀ i2 ∈ rest, FPath.part base j ≠ FPath.part base i2 := by
          intro i2 hi2
          have : j ≠ i2 := fun h => hnotmem (h ▸ hi2)
          simp [this]
        rw [hstep, hframe _ hne1 hne2, hfs1, lookupA_removeA_self]
      · rw [hstep]
        exact hpartsgone j hjr
    · intro p hp1 hp2
      have hp2r : ∀ i2 ∈ rest, p ≠ FPath.part base i2 := fun i2 hi2 =>
        hp2 i2 (List.mem_cons_of_mem i hi2)
      have hppi : p ≠ FPath.part base i := hp2 i (List.mem_cons_self i rest)
      rw [hstep, hframe p hp1 hp2r, hfs1, lookupA_removeA_ne _ _ _ hppi,
        lookupA_setA_ne _ _ _ _ hp1]

/-- Claim C2 (amended): when every part file `<filepath>.part0 ..
.part{n-1}` is present, `_merge_chunks` succeeds and writes the concatenation
of the part files in ascending index order directly into `filepath` (opened
with mode `wb`; no `<filepath>.tmp` is created and no rename occurs — the
tmp path is untouched), deleting each part file right after copying it, and
`download` then marks the task `completed`. -/
theorem mergeChunks_concatenates (fs : Fs) (base n : Nat) (f : Nat → List Nat)
    (hparts : ∀ i, i < n → lookupA fs (FPath.part base i) = some (f i)) :
    (mergeChunks fs base n).2 = true
    ∧ lookupA (mergeChunks fs base n).1 (FPath.final base)
        = some ((List.range n).map f).flatten
    ∧ (∀ i, i < n →
        lookupA (mergeChunks fs base n).1 (FPath.part base i) = none)
    ∧ lookupA (mergeChunks fs base n).1 (FPath.tmp base)
        = lookupA fs (FPath.tmp base)
    ∧ downloadStatusAfter (mergeChunks fs base n).2 = "completed" := by
  have hfinal0 : lookupA (setA fs (FPath.final base) []) (FPath.final base)
      = some [] := lookupA_setA_self fs (FPath.final base) []
  have hparts0 : ∀ i ∈ List.range n,
      lookupA (setA fs (FPath.final base) []) (FPath.part base i) = some (f i) := by
    intro i hi
    rw [lookupA_setA_ne _ _ _ _ (by simp : FPath.part base i ≠ FPath.final base)]
    exact hparts i (List.mem_range.mp hi)
  obtain ⟨hok, hfin, hgone, hframe⟩ :=
    mergeLoop_ok base f (List.range n) (setA fs (FPath.final base) []) []
      (List.nodup_range n) hfinal0 hparts0
  have hmc : mergeChunks fs base n
      = mergeLoop base (setA fs (FPath.final base) []) (List.range n) := rfl
  refine ⟨?_, ?_, ?_, ?_, ?_⟩
  · rw [hmc]; exact hok
  · rw [hmc, hfin]; simp
  · intro i hi
    rw [hmc]
    exact hgone i (List.mem_range.mpr hi)
  · rw [hmc, hframe (FPath.tmp base) (by simp) (fun i _ => by simp)]
    exact lookupA_setA_ne _ _ _ _ (by simp)
  · rw [hmc, hok]; rfl

/-- Witness for `mergeChunks_concatenates`: two part files holding `[1, 2]`
and `[3]` merge into the final file `[1, 2, 3]` with both parts deleted. -/
theorem mergeChunks_concatenates_witness :
    (∀ i, i < 2 →
      lookupA ([(FPath.part 0 0, [1, 2]), (FPath.part 0 1, [3])] : Fs)
        (FPath.part 0 i) = some (if i = 0 then [1, 2] else [3]))
    ∧ ((mergeChunks [(FPath.part 0 0, [1, 2]), (FPath.part 0 1, [3])] 0 2).2 = true
      ∧ lookupA (mergeChunks [(FPath.part 0 0, [1, 2]), (FPath.part 0 1, [3])] 0 2).1
          (FPath.final 0)
          = some ((List.range 2).map (fun i => if i = 0 then [1, 2] else [3])).flatten
      ∧ (∀ i, i < 2 →
          lookupA (mergeChunks [(FPath.part 0 0, [1, 2]), (FPath.part 0 1, [3])] 0 2).1
            (FPath.part 0 i) = none)
      ∧ lookupA (mergeChunks [(FPath.part 0 0, [1, 2]), (FPath.part 0 1, [3])] 0 2).1
          (FPath.tmp 0)
          = lookupA ([(FPath.part 0 0, [1, 2]), (FPath.part 0 1, [3])] : Fs)
              (FPath.tmp 0)
      ∧ downloadStatusAfter
          (mergeChunks [(FPath.part 0 0, [1, 2]), (FPath.part 0 1, [3])] 0 2).2
          = "completed") :=
  ⟨by decide,
    mergeChunks_concatenates [(FPath.part 0 0, [1, 2]), (FPath.part 0 1, [3])] 0 2
      (fun i => if i = 0 then [1, 2] else [3]) (by decide)⟩

/-- Counterexample to claim C2 as stated: the code's merge never touches
`<final_path>.tmp` — a stale file at the tmp path survives a successful merge
with its old bytes — whereas the merge the claim describes (write the
concatenation to `<final_path>.tmp`, rename it onto `final_path`, delete the
parts, as `mergeChunksSpecTmp`) would consume the tmp path.  The two disagree
on a concrete file system. -/
theorem mergeChunks_tmp_counterexample :
    (mergeChunks [(FPath.part 0 0, [1]), (FPath.part 0 1, [2]), (FPath.tmp 0, [9])]
        0 2).2 = true
    ∧ lookupA
        (mergeChunks [(FPath.part 0 0, [1]), (FPath.part 0 1, [2]), (FPath.tmp 0, [9])]
          0 2).1 (FPath.tmp 0) = some [9]
    ∧ lookupA
        (mergeChunksSpecTmp
          [(FPath.part 0 0, [1]), (FPath.part 0 1, [2]), (FPath.tmp 0, [9])]
          0 2).1 (FPath.tmp 0) = none
    ∧ mergeChunks [(FPath.part 0 0, [1]), (FPath.part 0 1, [2]), (FPath.tmp 0, [9])] 0 2
        ≠ mergeChunksSpecTmp
            [(FPath.part 0 0, [1]), (FPath.part 0 1, [2]), (FPath.tmp 0, [9])] 0 2 := by
  decide

/-! ### Claim C3: cancellation and on-disk artifacts -/

theorem cancelDownload_fields (s : MState) (tid : String) (t : MTask)
    (ht : lookupA s.tasks tid = some t) :
    (cancelDownload s tid).tasks
        = updateA (fun u => { u with status := "cancelled" }) s.tasks tid
    ∧ (cancelDownload s tid).queue = s.queue
    ∧ (cancelDownload s tid).fs
        = (match t.filepath with
          | some b =>
            if (lookupA s.fs (FPath.final b)).isSome then
              removeA s.fs (FPath.final b)
            else s.fs
          | none => s.fs) := by
  by_cases ha : (lookupA s.active tid).isSome
  all_goals
    simp only [cancelDownload, ha, Bool.false_eq_true, if_true, if_false,
      ite_true, ite_false]
    rw [ht]
    cases hfp : t.filepath with
    | some b =>
      simp only [hfp]
      by_cases hex : (lookupA s.fs (FPath.final b)).isSome
      · simp [hex]
      · simp [hex]
    | none =>
      simp only [hfp]
      simp

/-- Claim C3 (amended): for a task in status `downloading` or `paused`,
`cancel_download` sets the task's status to `cancelled` (raising the cancel
signal of its active downloader) and removes the single file at
`task.filepath` when it exists; every other path — in particular every
`<final_path>.part<i>` file — is left on disk, and the queue is unchanged. -/
theorem cancelDownload_behavior (s : MState) (tid : String) (t : MTask)
    (ht : lookupA s.tasks tid = some t)
    (hstatus : t.status = "downloading" ∨ t.status = "paused") :
    lookupA (cancelDownload s tid).tasks tid
        = some { t with status := "cancelled" }
    ∧ (∀ b, t.filepath = some b →
        lookupA (cancelDownload s tid).fs (FPath.final b) = none)
    ∧ (∀ b, t.filepath = some b → ∀ p, p ≠ FPath.final b →
        lookupA (cancelDownload s tid).fs p = lookupA s.fs p)
    ∧ (t.filepath = none → (cancelDownload s tid).fs = s.fs)
    ∧ (cancelDownload s tid).queue = s.queue := by
  obtain ⟨htasks, hqueue, hfs⟩ := cancelDownload_fields s tid t ht
  refine ⟨?_, ?_, ?_, ?_, hqueue⟩
  · rw [htasks, lookupA_updateA_self, ht]
    rfl
  · intro b hb
    rw [hfs]
    simp only [hb]
    by_cases hex : (lookupA s.fs (FPath.final b)).isSome
    · simp only [hex, if_true, ite_true]
      exact lookupA_removeA_self s.fs (FPath.final b)
    · simp only [hex, Bool.false_eq_true, if_false, ite_false]
      cases hl : lookupA s.fs (FPath.final b) with
      | none => rfl
      | some v => exact absurd (by rw [hl]; rfl) hex
  · intro b hb p hp
    rw [hfs]
    simp only [hb]
    by_cases hex : (lookupA s.fs (FPath.final b)).isSome
    · simp only [hex, if_true, ite_true]
      exact lookupA_removeA_ne _ _ _ hp
    · simp only [hex, Bool.false_eq_true, if_false, ite_false]
  · intro hb
    rw [hfs]
    simp only [hb]

/-- Witness for `cancelDownload_behavior` on the concrete store `cex3State`. -/
theorem cancelDownload_behavior_witness :
    (lookupA cex3State.tasks "t" = some cex3Task
      ∧ (cex3Task.status = "downloading" ∨ cex3Task.status = "paused"))
    ∧ (lookupA (cancelDownload cex3State "t").tasks "t"
        = some { cex3Task with status := "cancelled" }
      ∧ (∀ b, cex3Task.filepath = some b →
          lookupA (cancelDownload cex3State "t").fs (FPath.final b) = none)
      ∧ (∀ b, cex3Task.filepath = some b → ∀ p, p ≠ FPath.final b →
          lookupA (cancelDownload cex3State "t").fs p = lookupA cex3State.fs p)
      ∧ (cex3Task.filepath = none → (cancelDownload cex3State "t").fs = cex3State.fs)
      ∧ (cancelDownload cex3State "t").queue = cex3State.queue) :=
  ⟨⟨by decide, by decide⟩,
    cancelDownload_behavior cex3State "t" cex3Task (by decide) (by decide)⟩

/-- Counterexample to claim C3 as stated: cancelling a `downloading` task
whose segment part file `<final_path>.part0` is on disk yields status
`cancelled` but leaves the part file with its bytes on disk — the code
removes only the file at `task.filepath`, never the `.part<i>` files. -/
theorem cancelDownload_leaves_parts_counterexample :
    lookupA (cancelDownload cex3State "t").tasks "t"
        = some { cex3Task with status := "cancelled" }
    ∧ lookupA (cancelDownload cex3State "t").fs (FPath.part 0 0) = some [7] := by
  decide

/-! ### Claim C4: terminal statuses -/

theorem lookupA_map_ite {κ α : Type} [DecidableEq κ] (P : α → Prop)
    [DecidablePred P] (f : α → α) (l : List (κ × α)) (k : κ) :
    lookupA (l.map (fun e => if P e.2 then (e.1, f e.2) else e)) k
      = (lookupA l k).map (fun a => if P a then f a else a) := by
  induction l with
  | nil => rfl
  | cons hd tl ih =>
    obtain ⟨k1, a1⟩ := hd
    simp only [List.map_cons]
    by_cases hp : P a1
    · rw [if_pos hp]
      by_cases hk : k1 = k <;> simp [lookupA, hk, ih, hp]
    · rw [if_neg hp]
      by_cases hk : k1 = k <;> simp [lookupA, hk, ih, hp]

/-- Claim C4 (amended): a task whose status is `completed` or `cancelled` is
never mutated by `pause_download`, `resume_download` or `retry_failed` (given
the reachable-state invariant that a terminal task has no active downloader);
`cancel_download`, however, sets the status of any stored task — including a
`completed` one — to `cancelled` (a no-op on an already `cancelled` task), so
Completed does have an outgoing transition; and a `failed` task is mutated by
`resume_download`, which re-queues it and clears its error. -/
theorem terminal_task_transitions (s : MState) (tid : String) (t : MTask)
    (ht : lookupA s.tasks tid = some t)
    (hact : lookupA s.active tid = none) :
    (t.status = "completed" ∨ t.status = "cancelled" →
      pauseDownload s tid = s
      ∧ resumeDownload s tid = s
      ∧ lookupA (retryFailed s).tasks tid = some t)
    ∧ lookupA (cancelDownload s tid).tasks tid
        = some { t with status := "cancelled" }
    ∧ (t.status = "failed" →
      lookupA (resumeDownload s tid).tasks tid
          = some { t with status := "queued", error := none }) := by
  refine ⟨?_, ?_, ?_⟩
  · intro hterm
    have hcond : ¬(t.status = "paused" ∨ t.status = "failed") := by
      rcases hterm with h | h <;> rw [h] <;> decide
    have hfailed : ¬ t.status = "failed" := fun h => hcond (Or.inr h)
    refine ⟨?_, ?_, ?_⟩
    · simp [pauseDownload, hact]
    · simp only [resumeDownload, ht]
      rw [if_neg hcond]
    · show lookupA (retryFailed s).tasks tid = some t
      have : (retryFailed s).tasks = s.tasks.map
          (fun e => if e.2.status = "failed" then
            (e.1, { e.2 with status := "queued", error := none }) else e) := rfl
      rw [this, lookupA_map_ite (fun a => a.status = "failed")
        (fun a => { a with status := "queued", error := none }) s.tasks tid, ht]
      simp [hfailed]
  · rw [(cancelDownload_fields s tid t ht).1, lookupA_updateA_self, ht]
    rfl
  · intro hf
    simp only [resumeDownload, ht]
    rw [if_pos (Or.inr hf)]
    show lookupA (updateA (fun u => { u with status := "queued", error := none })
      s.tasks tid) tid = _
    rw [lookupA_updateA_self, ht]
    rfl

/-- Witness for `terminal_task_transitions` on the completed task of
`cex4State`. -/
theorem terminal_task_transitions_witness :
    (lookupA cex4State.tasks "c" = some cex4Task
      ∧ lookupA cex4State.active "c" = none)
    ∧ ((cex4Task.status = "completed" ∨ cex4Task.status = "cancelled" →
        pauseDownload cex4State "c" = cex4State
        ∧ resumeDownload cex4State "c" = cex4State
        ∧ lookupA (retryFailed cex4State).tasks "c" = some cex4Task)
      ∧ lookupA (cancelDownload cex4State "c").tasks "c"
          = some { cex4Task with status := "cancelled" }
      ∧ (cex4Task.status = "failed" →
        lookupA (resumeDownload cex4State "c").tasks "c"
            = some { cex4Task with status := "queued", error := none })) :=
  ⟨⟨by decide, by decide⟩,
    terminal_task_transitions cex4State "c" cex4Task (by decide) (by decide)⟩

/-- Counterexample to claim C4 as stated: `cancel_download` on a task whose
status is `completed` (a terminal status) mutates it — its status becomes
`cancelled` — so Completed is not transition-free. -/
theorem cancel_mutates_completed_counterexample :
    cex4Task.status = "completed"
    ∧ lookupA (cancelDownload cex4State "c").tasks "c"
        = some { cex4Task with status := "cancelled" }
    ∧ lookupA (cancelDownload cex4State "c").tasks "c" ≠ some cex4Task := by
  decide

/-! ### Claim C5: segment fetcher resume decisions -/

/-- Claim C5 (amended): `download_chunk` resumes from on-disk evidence as
follows.  No part file: request `Range: bytes={start}-{end}` with a truncating
(`wb`) open and seed 0.  Part file with exactly `end - start + 1` bytes: mark
the chunk done, no request.  Part file with any other positive size `s` —
including `s` larger than the segment length: request
`Range: bytes={start+s}-{end}`, open in append mode and seed the progress
counter to `s`.  Part file with size 0: request `Range: bytes={start}-{end}`
but in append (`ab`) mode, seed 0 — the file is not truncated. -/
theorem planChunkFetch_cases (start e : Int) (sz : Nat) :
    planChunkFetch start e none = FetchPlan.request start e false 0
    ∧ ((sz : Int) = e - start + 1 →
        planChunkFetch start e (some sz) = FetchPlan.skipCompleted sz)
    ∧ ((sz : Int) ≠ e - start + 1 → 0 < sz →
        planChunkFetch start e (some sz)
          = FetchPlan.request (start + (sz : Int)) e true sz)
    ∧ (sz = 0 → (0 : Int) ≠ e - start + 1 →
        planChunkFetch start e (some sz) = FetchPlan.request start e true 0) := by
  refine ⟨rfl, ?_, ?_, ?_⟩
  · intro hlen
    simp [planChunkFetch, hlen]
  · intro hlen hpos
    simp [planChunkFetch, hlen, hpos]
  · intro hz hlen
    subst hz
    simp only [planChunkFetch, Nat.cast_zero]
    rw [if_neg hlen]
    simp

/-- Witness for `planChunkFetch_cases` on the segment `[0, 9]` with part-file
sizes 10 (complete), 5 (partial), 0 (empty) and absent. -/
theorem planChunkFetch_cases_witness :
    planChunkFetch 0 9 none = FetchPlan.request 0 9 false 0
    ∧ planChunkFetch 0 9 (some 10) = FetchPlan.skipCompleted 10
    ∧ planChunkFetch 0 9 (some 5) = FetchPlan.request 5 9 true 5
    ∧ planChunkFetch 0 9 (some 0) = FetchPlan.request 0 9 true 0 :=
  ⟨(planChunkFetch_cases 0 9 0).1,
    (planChunkFetch_cases 0 9 10).2.1 (by decide),
    (planChunkFetch_cases 0 9 5).2.2.1 (by decide) (by decide),
    (planChunkFetch_cases 0 9 0).2.2.2 (by decide) (by decide)⟩

/-- Counterexample to claim C5 as stated: for the segment `[0, 9]` (length 10)
and an existing part file of 15 bytes, the claim's "otherwise" clause demands
`Range: bytes=0-9` with a truncating open, but the code requests
`Range: bytes=15-9` in append mode seeding the counter to 15. -/
theorem planChunkFetch_oversized_counterexample :
    planChunkFetch 0 9 (some 15) = FetchPlan.request 15 9 true 15
    ∧ planChunkFetch 0 9 (some 15) ≠ FetchPlan.request 0 9 false 0 := by
  decide

/-! ### Claim C6: single-stream versus multi-segment decision -/

/-- Claim C6: the single-stream path is taken if and only if
`total_size ≤ min_split_size`, or range support is absent, or the configured
segment count is `≤ 1`; in every other case the multi-threaded path runs and
the planner emits exactly `segment_count` segments. -/
theorem useMultiThreaded_iff (t m n : Nat) (s : Bool) :
    (useMultiThreaded t m s n = false ↔ (t ≤ m ∨ s = false ∨ n ≤ 1))
    ∧ (useMultiThreaded t m s n = true → (calculateChunks t n).length = n) := by
  constructor
  · cases s
    · simp [useMultiThreaded]
    · simp [useMultiThreaded, Nat.not_lt, Bool.and_eq_false_iff,
        decide_eq_false_iff_not]
      rw [Decidable.imp_iff_not_or, Nat.not_lt]
  · intro _
    simp [calculateChunks]

/-- Witness for `useMultiThreaded_iff`: a 5-byte file under a 10-byte split
threshold goes single-stream; a 50-byte file over it with range support and 8
segments goes multi-threaded with 8 planned segments. -/
theorem useMultiThreaded_iff_witness :
    useMultiThreaded 5 10 true 8 = false
    ∧ useMultiThreaded 50 10 true 8 = true
    ∧ (calculateChunks 50 8).length = 8 :=
  ⟨(useMultiThreaded_iff 5 10 8 true).1.mpr (Or.inl (by decide)),
    by decide,
    (useMultiThreaded_iff 50 10 8 true).2 (by decide)⟩

/-! ### Claim C7: persistence round trip -/

/-- Claim C7 (amended): the snapshot written by `save_tasks` lists exactly the
non-completed tasks, and a task that is `downloading` at save time is written
out with status `paused`; `load_tasks` reinstates records verbatim (no status
is rewritten on load), so a crash-time `downloading` task comes back `paused`;
it becomes `queued` only when `resume_all` runs (from `start` under
`resume_on_startup`), which re-queues `paused` and `downloading` tasks. -/
theorem saveLoad_roundtrip (tasks : List (String × MTask)) (fsAfter : Fs) :
    (∀ e ∈ saveTasks tasks, e.2.status ≠ "completed")
    ∧ (∀ e ∈ tasks, e.2.status ≠ "completed" →
        (e.1, toPersisted e.2) ∈ saveTasks tasks)
    ∧ (∀ e ∈ tasks, e.2.status = "completed" →
        (e.1, toPersisted e.2) ∉ saveTasks tasks)
    ∧ (∀ e ∈ tasks, e.2.status = "downloading" →
        (toPersisted e.2).status = "paused"
        ∧ (e.1, ofPersisted (toPersisted e.2)) ∈ loadTasks (saveTasks tasks)
        ∧ (ofPersisted (toPersisted e.2)).status = "paused"
        ∧ (e.1, { ofPersisted (toPersisted e.2) with status := "queued" })
            ∈ (resumeAll (loadedState (saveTasks tasks) fsAfter)).tasks) := by
  have h1 : ∀ e ∈ saveTasks tasks, e.2.status ≠ "completed" := by
    intro e he
    obtain ⟨a, ha, hsome⟩ := List.mem_filterMap.mp he
    by_cases hc : a.2.status = "completed"
    · rw [if_pos hc] at hsome
      cases hsome
    · rw [if_neg hc] at hsome
      cases hsome
      show (toPersisted a.2).status ≠ "completed"
      by_cases hd : a.2.status = "downloading"
      · have hp : (toPersisted a.2).status = "paused" := by simp [toPersisted, hd]
        rw [hp]
        decide
      · have hp : (toPersisted a.2).status = a.2.status := by
          simp [toPersisted, hd]
        rw [hp]
        exact hc
  have h2 : ∀ e ∈ tasks, e.2.status ≠ "completed" →
      (e.1, toPersisted e.2) ∈ saveTasks tasks := by
    intro e he hnc
    exact List.mem_filterMap.mpr ⟨e, he, by rw [if_neg hnc]⟩
  refine ⟨h1, h2, ?_, ?_⟩
  · intro e _ hc hmem
    apply h1 _ hmem
    have hd : ¬ e.2.status = "downloading" := by rw [hc]; decide
    show (toPersisted e.2).status = "completed"
    simp [toPersisted, hd, hc]
  · intro e he hd
    have hnc : e.2.status ≠ "completed" := by rw [hd]; decide
    have hp : (toPersisted e.2).status = "paused" := by simp [toPersisted, hd]
    have hq : (ofPersisted (toPersisted e.2)).status = "paused" := by
      simpa [ofPersisted] using hp
    have hmem2 : (e.1, ofPersisted (toPersisted e.2)) ∈ loadTasks (saveTasks tasks) :=
      List.mem_map_of_mem _ (h2 e he hnc)
    refine ⟨hp, hmem2, hq, ?_⟩
    have hall := List.mem_map_of_mem
      (fun u : String × MTask =>
        if u.2.status = "paused" ∨ u.2.status = "downloading" then
          (u.1, { u.2 with status := "queued" })
        else u) hmem2
    have happ :
        (fun u : String × MTask =>
          if u.2.status = "paused" ∨ u.2.status = "downloading" then
            (u.1, { u.2 with status := "queued" })
          else u) (e.1, ofPersisted (toPersisted e.2))
          = (e.1, { ofPersisted (toPersisted e.2) with status := "queued" }) := by
      simp [hq]
    rw [happ] at hall
    exact hall

/-- Witness for `saveLoad_roundtrip`: saving the `downloading` task `cex7Task`
and loading the snapshot yields it back with status `paused`. -/
theorem saveLoad_roundtrip_witness :
    (("d", cex7Task) ∈ [("d", cex7Task)] ∧ cex7Task.status = "downloading")
    ∧ ((toPersisted cex7Task).status = "paused"
      ∧ ("d", ofPersisted (toPersisted cex7Task))
          ∈ loadTasks (saveTasks [("d", cex7Task)])
      ∧ (ofPersisted (toPersisted cex7Task)).status = "paused"
      ∧ ("d", { ofPersisted (toPersisted cex7Task) with status := "queued" })
          ∈ (resumeAll (loadedState (saveTasks [("d", cex7Task)]) [])).tasks) :=
  ⟨⟨by decide, by decide⟩,
    (saveLoad_roundtrip [("d", cex7Task)] []).2.2.2 ("d", cex7Task)
      (by decide) (by decide)⟩

/-- Counterexample to claim C7 as stated: a task that was `downloading` at
save time is reinstated by `load_tasks` with status `paused`, not `queued` —
the save rewrites `downloading` to `paused` and the load rewrites nothing. -/
theorem load_keeps_paused_counterexample :
    lookupA (loadTasks (saveTasks [("d", cex7Task)])) "d"
        = some (ofPersisted (toPersisted cex7Task))
    ∧ (ofPersisted (toPersisted cex7Task)).status = "paused"
    ∧ (ofPersisted (toPersisted cex7Task)).status ≠ "queued"
    ∧ lookupA (loadTasks (saveTasks [("d", cex7Task)])) "d"
        ≠ some { cex7Task with status := "queued" } := by
  decide

/-! ### Claim C8: probe failure -/

/-- Claim C8 (amended): when the probe fails — the HEAD request raises, or it
returns status `>= 400` and the fallback GET raises or also returns
`>= 400` — `get_file_info` swallows the exception and returns the fallback
triple `("download_<epoch>", 0, False)`; `create_download_task` then creates
the task anyway, with status `pending` (never `failed`), no recorded error,
`total_size = 0` and `supports_resume = False`.  No `ProbeFailed` error is
surfaced, and nothing is written to disk (the probe and task creation only
read existing paths). -/
theorem probe_failure_behavior (headResult getResult : Except String HttpResponse)
    (unquote : String → String) (parsedPath : String) (epoch : Nat)
    (taskId url downloadDir : String) (existing : List String)
    (hfail : (∃ e, headResult = Except.error e)
      ∨ (∃ r, headResult = Except.ok r ∧ 400 ≤ r.statusCode
          ∧ ((∃ e2, getResult = Except.error e2)
            ∨ (∃ r2, getResult = Except.ok r2 ∧ 400 ≤ r2.statusCode)))) :
    getFileInfo headResult getResult unquote parsedPath epoch
        = ("download_" ++ toString epoch, 0, false)
    ∧ (createDownloadTask taskId url
        (getFileInfo headResult getResult unquote parsedPath epoch)
        downloadDir existing).status = "pending"
    ∧ (createDownloadTask taskId url
        (getFileInfo headResult getResult unquote parsedPath epoch)
        downloadDir existing).error = none
    ∧ (createDownloadTask taskId url
        (getFileInfo headResult getResult unquote parsedPath epoch)
        downloadDir existing).totalSize = 0
    ∧ (createDownloadTask taskId url
        (getFileInfo headResult getResult unquote parsedPath epoch)
        downloadDir existing).supportsResume = false := by
  have houtcome : getFileInfo headResult getResult unquote parsedPath epoch
      = ("download_" ++ toString epoch, 0, false) := by
    rcases hfail with ⟨e, he⟩ | ⟨r, hr, hcode, hrest⟩
    · simp [getFileInfo, he]
    · rcases hrest with ⟨e2, he2⟩ | ⟨r2, hr2, hcode2⟩
      · simp [getFileInfo, hr, he2, hcode]
      · simp [getFileInfo, hr, hr2, hcode, hcode2]
  refine ⟨houtcome, rfl, rfl, ?_, ?_⟩
  · rw [houtcome]
    rfl
  · rw [houtcome]
    rfl

/-- Witness for `probe_failure_behavior`: both the HEAD and the fallback GET
raise transport errors. -/
theorem probe_failure_behavior_witness :
    ((∃ e, (Except.error "timeout" : Except String HttpResponse) = Except.error e)
      ∨ (∃ r, (Except.error "timeout" : Except String HttpResponse) = Except.ok r
          ∧ 400 ≤ r.statusCode
          ∧ ((∃ e2, (Except.error "refused" : Except String HttpResponse)
                = Except.error e2)
            ∨ (∃ r2, (Except.error "refused" : Except String HttpResponse)
                = Except.ok r2 ∧ 400 ≤ r2.statusCode))))
    ∧ (getFileInfo (Except.error "timeout") (Except.error "refused") id "" 5
        = ("download_" ++ toString 5, 0, false)
      ∧ (createDownloadTask "a" "http://x"
          (getFileInfo (Except.error "timeout") (Except.error "refused") id "" 5)
          "downloads" []).status = "pending"
      ∧ (createDownloadTask "a" "http://x"
          (getFileInfo (Except.error "timeout") (Except.error "refused") id "" 5)
          "downloads" []).error = none
      ∧ (createDownloadTask "a" "http://x"
          (getFileInfo (Except.error "timeout") (Except.error "refused") id "" 5)
          "downloads" []).totalSize = 0
      ∧ (createDownloadTask "a" "http://x"
          (getFileInfo (Except.error "timeout") (Except.error "refused") id "" 5)
          "downloads" []).supportsResume = false) :=
  ⟨Or.inl ⟨"timeout", rfl⟩,
    probe_failure_behavior (Except.error "timeout") (Except.error "refused") id ""
      5 "a" "http://x" "downloads" [] (Or.inl ⟨"timeout", rfl⟩)⟩

/-- Counterexample to claim C8 as stated: with both probe requests failing,
no `ProbeFailed` error is recorded and the task is not marked `Failed` — it
is created with status `pending`, `error = None`, and the synthetic filename
`download_5`. -/
theorem probe_failure_not_failed_counterexample :
    (createDownloadTask "a" "http://x"
      (getFileInfo (Except.error "timeout") (Except.error "refused") id "" 5)
      "downloads" []).status = "pending"
    ∧ (createDownloadTask "a" "http://x"
        (getFileInfo (Except.error "timeout") (Except.error "refused") id "" 5)
        "downloads" []).status ≠ "failed"
    ∧ (createDownloadTask "a" "http://x"
        (getFileInfo (Except.error "timeout") (Except.error "refused") id "" 5)
        "downloads" []).error = none
    ∧ (createDownloadTask "a" "http://x"
        (getFileInfo (Except.error "timeout") (Except.error "refused") id "" 5)
        "downloads" []).filename = "download_5" := by
  decide

/-! ### Claim C9: idempotence of pause, resume, cancel -/

theorem isSome_false_eq_none {α : Type} (o : Option α) (h : ¬ o.isSome = true) :
    o = none := by
  cases o with
  | none => rfl
  | some v => exact absurd rfl h

theorem mstate_eq (a b : MState) (h1 : a.tasks = b.tasks) (h2 : a.active = b.active)
    (h3 : a.queue = b.queue) (h4 : a.fs = b.fs) : a = b := by
  cases a
  cases b
  simp_all

theorem cancelDownload_active (s : MState) (tid : String) :
    (cancelDownload s tid).active
      = (if (lookupA s.active tid).isSome then
          updateA (fun c => { c with cancelled := true }) s.active tid
        else s.active) := by
  by_cases ha : (lookupA s.active tid).isSome
  all_goals
    simp only [cancelDownload, ha, Bool.false_eq_true, if_true, if_false,
      ite_true, ite_false]
    cases ht : lookupA s.tasks tid with
    | none => rfl
    | some t =>
      cases hfp : t.filepath with
      | none => simp [hfp]
      | some b =>
        by_cases hex : (lookupA s.fs (FPath.final b)).isSome
        · simp [hfp, hex]
        · simp [hfp, hex]

theorem cancelDownload_fields_none (s : MState) (tid : String)
    (ht : lookupA s.tasks tid = none) :
    (cancelDownload s tid).tasks = s.tasks
    ∧ (cancelDownload s tid).queue = s.queue
    ∧ (cancelDownload s tid).fs = s.fs := by
  by_cases ha : (lookupA s.active tid).isSome
  all_goals
    simp only [cancelDownload, ha, Bool.false_eq_true, if_true, if_false,
      ite_true, ite_false]
    rw [ht]
    exact ⟨rfl, rfl, rfl⟩

theorem pauseDownload_idem (s : MState) (tid : String) :
    pauseDownload (pauseDownload s tid) tid = pauseDownload s tid := by
  by_cases ha : (lookupA s.active tid).isSome
  · simp only [pauseDownload, ha, isSome_lookupA_updateA, if_true, ite_true]
    rw [updateA_idem (fun u : MTask => { u with status := "paused" }) (fun a => rfl),
      updateA_idem (fun c : Ctrl => { c with paused := true }) (fun a => rfl)]
  · simp [pauseDownload, ha]

theorem resumeDownload_idem (s : MState) (tid : String) :
    resumeDownload (resumeDownload s tid) tid = resumeDownload s tid := by
  cases ht : lookupA s.tasks tid with
  | none =>
    have h1 : resumeDownload s tid = s := by
      simp only [resumeDownload]
      rw [ht]
    rw [h1]
    exact h1
  | some t =>
    by_cases hc : t.status = "paused" ∨ t.status = "failed"
    · have h1 : resumeDownload s tid
          = { s with
              tasks := updateA (fun u => { u with status := "queued", error := none })
                s.tasks tid,
              queue := s.queue ++ [tid] } := by
        simp only [resumeDownload]
        rw [ht]
        simp only [hc, if_pos, ite_true]
      rw [h1]
      have ht2 : lookupA (updateA
          (fun u => { u with status := "queued", error := none }) s.tasks tid) tid
          = some { t with status := "queued", error := none } := by
        rw [lookupA_updateA_self, ht]
        rfl
      simp only [resumeDownload]
      simp only [ht2]
      rw [if_neg (by decide)]
    · have h1 : resumeDownload s tid = s := by
        simp only [resumeDownload]
        simp only [ht]
        rw [if_neg hc]
      rw [h1]
      exact h1

theorem cancelDownload_idem (s : MState) (tid : String) :
    cancelDownload (cancelDownload s tid) tid = cancelDownload s tid := by
  have hactive : (cancelDownload (cancelDownload s tid) tid).active
      = (cancelDownload s tid).active := by
    rw [cancelDownload_active (cancelDownload s tid) tid, cancelDownload_active s tid]
    by_cases ha : (lookupA s.active tid).isSome
    · rw [if_pos ha, if_pos (by rw [isSome_lookupA_updateA]; exact ha),
        updateA_idem (fun c : Ctrl => { c with cancelled := true }) (fun a => rfl)]
    · rw [if_neg ha, if_neg ha]
  cases ht : lookupA s.tasks tid with
  | none =>
    obtain ⟨h1, h2, h3⟩ := cancelDownload_fields_none s tid ht
    have ht2 : lookupA (cancelDownload s tid).tasks tid = none := by rw [h1, ht]
    obtain ⟨g1, g2, g3⟩ := cancelDownload_fields_none (cancelDownload s tid) tid ht2
    exact mstate_eq _ _ g1 hactive g2 g3
  | some t =>
    obtain ⟨h1, h2, h3⟩ := cancelDownload_fields s tid t ht
    have ht2 : lookupA (cancelDownload s tid).tasks tid
        = some { t with status := "cancelled" } := by
      rw [h1, lookupA_updateA_self, ht]
      rfl
    obtain ⟨g1, g2, g3⟩ :=
      cancelDownload_fields (cancelDownload s tid) tid { t with status := "cancelled" } ht2
    refine mstate_eq _ _ ?_ hactive g2 ?_
    · rw [g1, h1,
        updateA_idem (fun u : MTask => { u with status := "cancelled" }) (fun a => rfl)]
    · rw [g3]
      show (match ({ t with status := "cancelled" } : MTask).filepath with
        | some b =>
          if (lookupA (cancelDownload s tid).fs (FPath.final b)).isSome then
            removeA (cancelDownload s tid).fs (FPath.final b)
          else (cancelDownload s tid).fs
        | none => (cancelDownload s tid).fs) = (cancelDownload s tid).fs
      cases hfp : t.filepath with
      | none => rfl
      | some b =>
        have hnone : lookupA (cancelDownload s tid).fs (FPath.final b) = none := by
          rw [h3]
          simp only [hfp]
          by_cases hex : (lookupA s.fs (FPath.final b)).isSome
          · simp only [hex, if_true, ite_true]
            exact lookupA_removeA_self s.fs (FPath.final b)
          · simp only [hex, Bool.false_eq_true, if_false, ite_false]
            exact isSome_false_eq_none _ hex
        simp [hnone]

/-- Claim C9: `pause_download`, `resume_download` and `cancel_download` are
idempotent — applying any of them twice in succession leaves the manager
state (task store, downloader controls, queue and disk) exactly as one
application does. -/
theorem lifecycle_idempotent (s : MState) (tid : String) :
    pauseDownload (pauseDownload s tid) tid = pauseDownload s tid
    ∧ resumeDownload (resumeDownload s tid) tid = resumeDownload s tid
    ∧ cancelDownload (cancelDownload s tid) tid = cancelDownload s tid :=
  ⟨pauseDownload_idem s tid, resumeDownload_idem s tid, cancelDownload_idem s tid⟩

/-! ### Claim C10: clear_completed -/

/-- Claim C10: `clear_completed` removes exactly the tasks whose status is
`completed`: afterwards no `completed` task remains in the store; every task
with any other status is still present as the very same entry (all fields
unchanged); nothing new appears; and the controls, queue and disk are
untouched. -/
theorem clearCompleted_exact (s : MState) :
    (∀ e ∈ (clearCompleted s).tasks, e.2.status ≠ "completed")
    ∧ (∀ e ∈ s.tasks, e.2.status ≠ "completed" → e ∈ (clearCompleted s).tasks)
    ∧ (∀ e ∈ (clearCompleted s).tasks, e ∈ s.tasks)
    ∧ (clearCompleted s).active = s.active
    ∧ (clearCompleted s).queue = s.queue
    ∧ (clearCompleted s).fs = s.fs := by
  refine ⟨?_, ?_, ?_, rfl, rfl, rfl⟩
  · intro e he
    have h := (List.mem_filter.mp he).2
    simpa using h
  · intro e he hne
    exact List.mem_filter.mpr ⟨he, by simpa using hne⟩
  · intro e he
    exact (List.mem_filter.mp he).1

/-- Witness for `clearCompleted_exact` on a store with one completed and one
failed task: the failed entry survives untouched. -/
theorem clearCompleted_exact_witness :
    (("x", cex10Task) ∈ cex10State.tasks ∧ cex10Task.status ≠ "completed")
    ∧ ("x", cex10Task) ∈ (clearCompleted cex10State).tasks :=
  ⟨⟨by decide, by decide⟩,
    (clearCompleted_exact cex10State).2.1 ("x", cex10Task) (by decide) (by decide)⟩
